import Mathlib

/-!
Shallow embedding of the myBackTester event-driven backtesting core
(src/performance.py, src/event.py, src/data.py, src/portfolio.py,
src/main.py), together with theorems checking the natural-language
specification of the repository against the embedded code.

Conventions used throughout:
* machine floats of the source are modelled as rationals;
* a float NaN (for instance the cells of a freshly allocated pandas
  series that are read before being written) is modelled as `none` in
  `Option ℚ`, with NaN-propagating arithmetic modelled by `Option.map`;
* Python functions that can raise (ValueError, AssertionError) are
  embedded as `Except String`-valued functions;
* timestamps are natural numbers, symbols are strings.
-/

namespace BackTester

/-! ## src/performance.py -/

/-- Embedding of numpy mean on a nonempty list: sum divided by length. -/
def npMean (l : List ℚ) : ℚ := l.sum / l.length

/-- Square of the numpy population standard deviation (ddof = 0): the
mean of the squared deviations.  The square is tracked so that all values
stay rational. -/
def npStdSq (l : List ℚ) : ℚ := (l.map (fun x => (x - npMean l) ^ 2)).sum / l.length

/-- Annualisation table of get_sharpe_ratio:
period = (Daily : 252, Hour : 252 * 6.5, Minute : 252 * 6.5 * 60). -/
def periodTable (periods : String) : ℚ :=
  if periods = "Daily" then 252
  else if periods = "Hour" then 252 * (13 / 2)
  else 252 * (13 / 2) * 60

/-- Embedding of get_sharpe_ratio(returns, risk_free, periods).  The guards
mirror the source in order: first the emptiness test (the source writes
"if not returns: raise ValueError"), then the assert on the periods preset,
then the assert that risk_free lies in [0, 1].  The returned float value
sqrt(period) * mean(returns) / std(returns) is represented by the triple
(period, mean, variance) — the real value is
sqrt(period) * mean / sqrt(variance).  The source performs the final
division UNGUARDED: numpy division of a nonzero float by 0.0 yields
inf/nan with a warning, not an exception, so a zero standard deviation
still produces an ok result here. -/
def get_sharpe_ratio (returns : List ℚ) (risk_free : ℚ) (periods : String) :
    Except String (ℚ × ℚ × ℚ) :=
  match returns with
  | [] => .error "Input value returns is None."
  | _ :: _ =>
    if ¬ (periods = "Daily" ∨ periods = "Hour" ∨ periods = "Minute") then
      .error "AssertionError: periods"
    else if ¬ (0 ≤ risk_free ∧ risk_free ≤ 1) then
      .error "AssertionError: risk_free rate must lie in [0,1]"
    else .ok (periodTable periods, npMean returns, npStdSq returns)

/-- Python list read l[t-1] at a natural loop index t, as exercised by
hwm[t-1] and duration[t-1] in create_drawdowns: at t = 0 the Python index
is -1, which wraps around to the LAST element; for t ≥ 1 it is the plain
read at position t - 1 (the default is returned out of range, which is
unreachable on the paths modelled here). -/
def pyPred {α : Type} (l : List α) (t : Nat) (dflt : α) : α :=
  if t = 0 then l.getD (l.length - 1) dflt else l.getD (t - 1) dflt

/-- Accumulator of the loop in create_drawdowns: the growing Python list
hwm (seeded with [0]), and the two pandas series.  The drawdown series is
written in index order and never read before being written, so it is kept
as a plain list built left to right; the duration series is read at
position t-1 when t = 0 (wrapping to the LAST, still uninitialised cell),
so it is kept at full length, seeded with NaN (= none). -/
structure DrawdownAcc where
  hwm : List ℚ
  drawdown : List ℚ
  duration : List (Option ℚ)

/-- One iteration of the loop in create_drawdowns, at loop index t:
cur_hwm = max(hwm[t-1], equity[t]) is appended to hwm, then
drawdown[t] = hwm[t] - equity[t] (note: the cell t of the EXTENDED list,
which is the value appended at iteration t-1, not cur_hwm), and
duration[t] = 0 if drawdown[t] == 0 else duration[t-1] + 1, where NaN + 1
stays NaN. -/
def drawdownStep (equity_curve : List ℚ) (acc : DrawdownAcc) (t : Nat) : DrawdownAcc :=
  let e_t := equity_curve.getD t 0
  let cur_hwm := max (pyPred acc.hwm t 0) e_t
  let hwm := acc.hwm ++ [cur_hwm]
  let dd_t := hwm.getD t 0 - e_t
  let dur_t : Option ℚ :=
    if dd_t = 0 then some 0
    else (pyPred acc.duration t none).map (fun d => d + 1)
  { hwm := hwm
    drawdown := acc.drawdown ++ [dd_t]
    duration := acc.duration.set t dur_t }

/-- Stable insertion of one (drawdown, duration) pair into a list already
sorted by drawdown in descending order: the new pair goes after every
element whose drawdown is greater than or equal to its own, which is
exactly the tie-breaking of a stable descending sort. -/
def insertByDrawdownDesc (x : ℚ × Option ℚ) : List (ℚ × Option ℚ) → List (ℚ × Option ℚ)
  | [] => [x]
  | y :: ys => if y.1 < x.1 then x :: y :: ys else y :: insertByDrawdownDesc x ys

/-- Stable sort by drawdown in descending order, matching Python
sorted(..., key = first component, reverse = True). -/
def sortedByDrawdownDesc (l : List (ℚ × Option ℚ)) : List (ℚ × Option ℚ) :=
  l.foldl (fun acc x => insertByDrawdownDesc x acc) []

/-- Embedding of create_drawdowns: runs the loop over every index of the
equity curve and returns zip(drawdown, duration) sorted by drawdown value
in descending order. -/
def create_drawdowns (equity_curve : List ℚ) : List (ℚ × Option ℚ) :=
  let start : DrawdownAcc :=
    { hwm := [0], drawdown := [], duration := equity_curve.map (fun _ => none) }
  let acc := (List.range equity_curve.length).foldl (drawdownStep equity_curve) start
  sortedByDrawdownDesc (acc.drawdown.zip acc.duration)

/-- Embedding of get_max_drawdowns: rejects an empty curve, otherwise
returns the head of the sorted drawdown list (res[0][0], res[0][1]); the
inner .error branch models the IndexError of res[0] on an empty result
and is unreachable for a nonempty curve. -/
def get_max_drawdowns (equity_curve : List ℚ) : Except String (ℚ × Option ℚ) :=
  match equity_curve with
  | [] => .error "Input value equity_curve is None."
  | _ :: _ =>
    match create_drawdowns equity_curve with
    | [] => .error "IndexError: res is empty"
    | r :: _ => .ok r

/-! ## src/event.py -/

/-- Embedding of FillEvent.caculate_ib_commission (name sic from the
source): full_cost = max(1.3, 0.013 * quantity) for quantity ≤ 500,
max(1.3, 0.008 * quantity) above, then capped by
min(full_cost, 0.5 / 100 * quantity * fill_cost). -/
def caculate_ib_commission (quantity : ℤ) (fill_cost : ℚ) : ℚ :=
  min
    (if quantity ≤ 500 then max (13 / 10) ((13 / 1000) * quantity)
     else max (13 / 10) ((1 / 125) * quantity))
    ((1 / 200) * quantity * fill_cost)

/-- Fill event as constructed by FillEvent.__init__ (type tag FILL is
implicit in the Lean type). -/
structure FillEvent where
  timeindex : Nat
  symbol : String
  exchange : String
  quantity : ℤ
  direction : String
  fill_cost : ℚ
  commission : ℚ
deriving DecidableEq

/-- Embedding of FillEvent.__init__: when no commission is supplied the
stored commission is derived by caculate_ib_commission from the quantity
and the fill cost. -/
def mkFillEvent (timeindex : Nat) (symbol exchange : String) (quantity : ℤ)
    (direction : String) (fill_cost : ℚ) (commission : Option ℚ) : FillEvent :=
  { timeindex := timeindex
    symbol := symbol
    exchange := exchange
    quantity := quantity
    direction := direction
    fill_cost := fill_cost
    commission :=
      match commission with
      | none => caculate_ib_commission quantity fill_cost
      | some c => c }

/-- Signal record consumed by NaivePortfolio.generate_naive_order: the
policy reads signal.symbol, signal.signal_type and signal.strength.
(SignalEvent.__init__ in src/event.py validates
signal_type ∈ (LONG, SHORT, EXIT) but by a slip never stores a strength
attribute even though generate_naive_order reads one; the sizing policy
is embedded over the record it consumes, with strength typed as the
data-model section of the specification types it, a nonnegative float.) -/
structure SignalEvent where
  symbol : String
  datetime : Nat
  signal_type : String
  strength : ℚ
deriving DecidableEq

/-- Order data passed to OrderEvent.__init__.  The source constructor
only runs its assert statements and (by a slip) stores nothing; the
record here keeps the constructor's arguments, which are what
generate_naive_order emits. -/
structure OrderEvent where
  symbol : String
  order_type : String
  quantity : ℤ
  direction : String
deriving DecidableEq

/-- The assert guards of OrderEvent.__init__: order_type ∈ (MKT, LMT),
quantity a nonnegative integer, direction ∈ (BUY, SELL). -/
def orderEventOk (o : OrderEvent) : Prop :=
  (o.order_type = "MKT" ∨ o.order_type = "LMT") ∧ 0 ≤ o.quantity ∧
    (o.direction = "BUY" ∨ o.direction = "SELL")

instance (o : OrderEvent) : Decidable (orderEventOk o) := by
  unfold orderEventOk; infer_instance

/-- Constructing an OrderEvent runs the asserts; an assert failure is an
AssertionError, embedded as an error value. -/
def mkOrderEvent (symbol order_type : String) (quantity : ℤ) (direction : String) :
    Except String OrderEvent :=
  let o : OrderEvent :=
    { symbol := symbol, order_type := order_type, quantity := quantity, direction := direction }
  if orderEventOk o then .ok o else .error "AssertionError: OrderEvent"

/-! ## src/data.py -/

/-- One row of a symbol's CSV record store.  The source reads the columns
under the names datetime, open, low, high, close, volume, oi; Lean
reserves the word open, so the value columns are abbreviated op, lo, hi,
close, volume, oi. -/
structure CSVRow where
  op : ℚ
  lo : ℚ
  hi : ℚ
  close : ℚ
  volume : ℚ
  oi : ℚ
deriving DecidableEq

/-- The five value components of a produced bar tuple
(symbol, datetime, open, low, high, close, volume): the oi column is
dropped by the bar constructor in the source. -/
structure BarData where
  op : ℚ
  lo : ℚ
  hi : ℚ
  close : ℚ
  volume : ℚ
deriving DecidableEq

/-- A bar as appended to latest_symbol_data.  data = none models a row of
NaNs: a timestamp of the combined index that precedes the symbol's first
record, where forward-filling has nothing to repeat. -/
structure Bar where
  symbol : String
  datetime : Nat
  data : Option BarData
deriving DecidableEq

/-- The comb_index computed by _open_convert_csv_files.  The source
initialises it with the first symbol's index and then, for every further
symbol, evaluates comb_index.union(...) WITHOUT assigning the result
(pandas Index.union is pure and returns a new index), so the combined
index is in fact just the first symbol's index; the fold below keeps that
behaviour, the discarded union having no effect to embed. -/
def combIndex (store : List (String × List (Nat × CSVRow))) : List Nat :=
  (store.foldl
    (fun acc entry =>
      match acc with
      | none => some (entry.2.map Prod.fst)
      | some c => some c)
    none).getD []

/-- Forward-fill lookup: the last record of the (time-sorted) record list
whose timestamp is at most t, as pandas reindex with method pad selects. -/
def padLookup (records : List (Nat × CSVRow)) (t : Nat) : Option CSVRow :=
  ((records.filter (fun r => r.1 ≤ t)).getLast?).map Prod.snd

/-- Reindex a symbol's records onto the index idx with forward-fill: one
(possibly NaN) row per timestamp of idx. -/
def reindexPad (records : List (Nat × CSVRow)) (idx : List Nat) :
    List (Nat × Option CSVRow) :=
  idx.map (fun t => (t, padLookup records t))

/-- Per-symbol replay state: the reindexed rows not yet consumed by the
replay cursor, and latest_symbol_data, the bars already produced.  The
source drives the cursor through _get_new_bar and next() inside
update_bars with StopIteration caught on exhaustion; _get_new_bar itself
is written with a slip (it builds a fresh generator on every call and
iterates the dict of frames rather than the symbol's rows), so the
embedding keeps the per-symbol row cursor that the try/except structure
of update_bars presupposes and that the docstrings of both functions
describe. -/
structure SymbolFeed where
  symbol : String
  remaining : List (Nat × Option CSVRow)
  latest : List Bar
deriving DecidableEq

/-- State of HistoricCSVDataHandler: the per-symbol feeds in symbol_list
order (symbol_data and latest_symbol_data are dicts keyed by exactly
those symbols) and the continue_backtest flag. -/
structure DataHandlerState where
  data : List SymbolFeed
  continue_backtest : Bool
deriving DecidableEq

/-- Embedding of _open_convert_csv_files, run by the constructor over the
per-symbol record store: computes comb_index, reindexes every symbol onto
it with forward-fill, and starts every latest_symbol_data at the empty
list with the backtest flag raised. -/
def open_convert_csv_files (store : List (String × List (Nat × CSVRow))) :
    DataHandlerState :=
  { data := store.map (fun e => ⟨e.1, reindexPad e.2 (combIndex store), []⟩)
    continue_backtest := true }

/-- Bar tuple built by _get_new_bar from one reindexed row: symbol,
timestamp, then the open/low/high/close/volume columns (oi dropped); a
NaN row stays a row of NaNs. -/
def mkBar (symbol : String) (row : Nat × Option CSVRow) : Bar :=
  ⟨symbol, row.1, row.2.map (fun r => ⟨r.op, r.lo, r.hi, r.close, r.volume⟩)⟩

/-- The only event the data handler emits. -/
inductive FeedEvent where
  | market
deriving DecidableEq

/-- Embedding of HistoricCSVDataHandler.update_bars: for each tracked
symbol take the next reindexed row, appending the bar when one exists and
setting continue_backtest to False when the symbol's rows are exhausted
(the except StopIteration branch).  A MarketEvent is put on the event
queue UNCONDITIONALLY after the loop, even on the call that finds the
feed exhausted. -/
def update_bars (st : DataHandlerState) : DataHandlerState × List FeedEvent :=
  ({ data := st.data.map (fun f =>
        match f.remaining with
        | [] => f
        | r :: rest => { f with remaining := rest, latest := f.latest ++ [mkBar f.symbol r] })
     continue_backtest :=
       if st.data.any (fun f => f.remaining.isEmpty) then false else st.continue_backtest },
   [FeedEvent.market])

/-- Dict lookup latest_symbol_data[symbol]: the feed entry of the given
symbol, if the symbol is tracked. -/
def lookupFeed (st : DataHandlerState) (symbol : String) : Option SymbolFeed :=
  st.data.find? (fun f => f.symbol == symbol)

/-- Python slice bar_list[-N:]: the last N elements when N ≥ 1, but the
WHOLE list when N = 0, since l[-0:] is l[0:]. -/
def pySliceLast (l : List Bar) (n : Nat) : List Bar :=
  if n = 0 then l else l.drop (l.length - n)

/-- Embedding of HistoricCSVDataHandler.get_latest_bars: a tracked symbol
returns bar_list[-N:]; an unknown symbol hits the except KeyError branch,
which prints a message and falls off the end of the function, returning
Python None — modelled as none, not as an empty list. -/
def get_latest_bars (st : DataHandlerState) (symbol : String) (n : Nat) :
    Option (List Bar) :=
  match lookupFeed st symbol with
  | none => none
  | some f => some (pySliceLast f.latest n)

/-- Outer phase of the dispatch loop of src/main.py, restricted to the
feed state it drives: while continue_backtest holds, call update_bars
(the inner phase then drains the queue); the fuel argument bounds the
recursion. -/
def outerLoop : Nat → DataHandlerState → DataHandlerState
  | 0, st => st
  | n + 1, st =>
    if st.continue_backtest then outerLoop n (update_bars st).1 else st

/-! ## src/portfolio.py -/

/-- A row of the all_holdings series: the dict built by update_timeindex
with the per-symbol market-value columns (kept as a total function that
is zero off the tracked symbols), the carried cash and cumulative
commission, and the total column. -/
structure HoldingsRow where
  datetime : Nat
  values : String → ℚ
  cash : ℚ
  commission : ℚ
  total : ℚ

/-- A row of the all_position series. -/
structure PositionsRow where
  datetime : Nat
  positions : String → ℤ

/-- The current_holdings dict: per-symbol cumulative value columns plus
cash, cumulative commission and total.  (construct_current_holdings in
the source wraps this dict in a one-element list by a copy-paste slip;
every later access reads string keys from it, so the dict itself is
embedded.) -/
structure CurrentHoldings where
  values : String → ℚ
  cash : ℚ
  commission : ℚ
  total : ℚ

/-- State of NaivePortfolio. -/
structure PortfolioState where
  symbol_list : List String
  current_positions : String → ℤ
  current_holdings : CurrentHoldings
  all_position : List PositionsRow
  all_holdings : List HoldingsRow

/-- Embedding of NaivePortfolio.construct_current_holdings (the dict, see
the note on CurrentHoldings). -/
def construct_current_holdings (init_capital : ℚ) : CurrentHoldings :=
  { values := fun _ => 0, cash := init_capital, commission := 0, total := init_capital }

/-- Embedding of the NaivePortfolio constructor: zero seed rows for both
series, zero positions, starting cash. -/
def NaivePortfolio.mk (symbol_list : List String) (start_date : Nat)
    (init_capital : ℚ) : PortfolioState :=
  { symbol_list := symbol_list
    current_positions := fun _ => 0
    current_holdings := construct_current_holdings init_capital
    all_position := [⟨start_date, fun _ => 0⟩]
    all_holdings :=
      [{ datetime := start_date, values := fun _ => 0, cash := init_capital,
         commission := 0, total := init_capital }] }

/-- The holdings row appended by update_timeindex: dt is the timestamp of
the first symbol's latest bar (bars[symbol_list[0]][0][1] in the source)
and close s the latest close of symbol s (bars[s][0][5]); both are taken
from get_latest_bars with N = 1 and are passed here as inputs, which
presupposes — as the source does — that every tracked symbol already has
at least one produced bar.  cash and commission are carried over, the
value column of each tracked symbol is current_positions[s] * close s,
and total starts from cash and accumulates the market value of every
symbol of symbol_list in turn. -/
def mkHoldingsRow (st : PortfolioState) (dt : Nat) (close : String → ℚ) :
    HoldingsRow :=
  { datetime := dt
    values := fun s =>
      if s ∈ st.symbol_list then (st.current_positions s : ℚ) * close s else 0
    cash := st.current_holdings.cash
    commission := st.current_holdings.commission
    total := st.current_holdings.cash +
      (st.symbol_list.map (fun s => (st.current_positions s : ℚ) * close s)).sum }

/-- Embedding of NaivePortfolio.update_timeindex: appends one positions
row (a snapshot of current_positions over the tracked symbols) and one
holdings row; current_positions and current_holdings are untouched. -/
def update_timeindex (st : PortfolioState) (dt : Nat) (close : String → ℚ) :
    PortfolioState :=
  { st with
    all_position := st.all_position ++
      [⟨dt, fun s => if s ∈ st.symbol_list then st.current_positions s else 0⟩]
    all_holdings := st.all_holdings ++ [mkHoldingsRow st dt close] }

/-- The fill direction factor: fill_dir starts at 0 and is set to 1 by
the BUY test and to -1 by the SELL test (two independent if statements on
the same string, which cannot both hold). -/
def fillDir (direction : String) : ℤ :=
  if direction = "BUY" then 1 else if direction = "SELL" then -1 else 0

/-- Embedding of NaivePortfolio.update_positions_from_fill:
current_positions[fill.symbol] += fill_dir * fill.quantity. -/
def update_positions_from_fill (st : PortfolioState) (fill : FillEvent) :
    PortfolioState :=
  { st with
    current_positions := Function.update st.current_positions fill.symbol
      (st.current_positions fill.symbol + fillDir fill.direction * fill.quantity) }

/-- Embedding of NaivePortfolio.update_holdings_from_fill.  NOTE: the
price used is the LATEST BAR'S CLOSE,
self.bars.get_latest_bars(fill.symbol)[0][5], passed here as
latest_close; the fill event's own fill_cost attribute is never read.
fill_cost below is the source's local variable
fill_dir * fill_price * fill.quantity.  The total column is adjusted by
-(fill_cost + commission), it is NOT recomputed from cash and the value
columns. -/
def update_holdings_from_fill (st : PortfolioState) (fill : FillEvent)
    (latest_close : ℚ) : PortfolioState :=
  let fill_cost : ℚ := (fillDir fill.direction : ℚ) * latest_close * fill.quantity
  { st with
    current_holdings :=
      { values := Function.update st.current_holdings.values fill.symbol
          (st.current_holdings.values fill.symbol + fill_cost)
        cash := st.current_holdings.cash - (fill_cost + fill.commission)
        commission := st.current_holdings.commission + fill.commission
        total := st.current_holdings.total - (fill_cost + fill.commission) } }

/-- Embedding of NaivePortfolio.update_fill on a FILL event: holdings
update, then positions update. -/
def update_fill (st : PortfolioState) (fill : FillEvent) (latest_close : ℚ) :
    PortfolioState :=
  update_positions_from_fill (update_holdings_from_fill st fill latest_close) fill

/-- Embedding of NaivePortfolio.generate_naive_order.  cur_quantity is
self.current_positions[signal.symbol].  The source tests the four cases
with independent if statements whose conditions are mutually exclusive
(the direction strings differ and the sign conditions on cur_quantity are
disjoint), so an if chain is equivalent.  Constructing an OrderEvent runs
the constructor's asserts. -/
def generate_naive_order (signal : SignalEvent) (cur_quantity : ℤ) :
    Except String (Option OrderEvent) :=
  let mkt_quantity : ℤ := ⌊(100 : ℚ) * signal.strength⌋
  if signal.signal_type = "LONG" ∧ cur_quantity = 0 then
    (mkOrderEvent signal.symbol "MKT" mkt_quantity "BUY").map some
  else if signal.signal_type = "SHORT" ∧ cur_quantity = 0 then
    (mkOrderEvent signal.symbol "MKT" mkt_quantity "SELL").map some
  else if signal.signal_type = "EXIT" ∧ cur_quantity > 0 then
    (mkOrderEvent signal.symbol "MKT" |cur_quantity| "SELL").map some
  else if signal.signal_type = "EXIT" ∧ cur_quantity < 0 then
    (mkOrderEvent signal.symbol "MKT" |cur_quantity| "BUY").map some
  else .ok none

/-- The orders carried by the result of generate_naive_order: one when
the policy built an order, none when it returned None or an assert
fired. -/
def ordersOf (r : Except String (Option OrderEvent)) : List OrderEvent :=
  match r with
  | .ok (some o) => [o]
  | _ => []

/-- Embedding of NaivePortfolio.update_signal on a SIGNAL event: the
generated value is put on the event queue — the source enqueues it even
when it is None. -/
def update_signal (events : List (Option OrderEvent)) (signal : SignalEvent)
    (cur_quantity : ℤ) : Except String (List (Option OrderEvent)) :=
  (generate_naive_order signal cur_quantity).map (fun o => events ++ [o])

/-- States of the ledger reachable in a run: the freshly constructed
portfolio, followed by any interleaving of time-index updates (one per
Market event) and fill updates. -/
inductive Reach (symbol_list : List String) (start_date : Nat) (init_capital : ℚ) :
    PortfolioState → Prop where
  | start : Reach symbol_list start_date init_capital
      (NaivePortfolio.mk symbol_list start_date init_capital)
  | market (st : PortfolioState) (dt : Nat) (close : String → ℚ) :
      Reach symbol_list start_date init_capital st →
      Reach symbol_list start_date init_capital (update_timeindex st dt close)
  | fill (st : PortfolioState) (f : FillEvent) (latest_close : ℚ) :
      Reach symbol_list start_date init_capital st →
      Reach symbol_list start_date init_capital (update_fill st f latest_close)

/-- The holdings-row invariant of the specification:
total = cash + sum of the per-symbol value columns over the tracked
symbols. -/
def rowInvariant (symbol_list : List String) (row : HoldingsRow) : Prop :=
  row.total = row.cash + (symbol_list.map row.values).sum

/-- The same invariant read on the current_holdings dict. -/
def currentInvariant (symbol_list : List String) (ch : CurrentHoldings) : Prop :=
  ch.total = ch.cash + (symbol_list.map ch.values).sum

/-! ## Concrete instances used by the theorems below -/

/-- A CSV row whose every column holds the same value. -/
def rowOf (x : ℚ) : CSVRow := ⟨x, x, x, x, x, x⟩

/-- Record store of the forward-fill test of the specification: symbol A
observed at times 1 and 3, symbol B observed at times 1, 2 and 3. -/
def storeAB : List (String × List (Nat × CSVRow)) :=
  [(("A"), [(1, rowOf 10), (3, rowOf 30)]),
   (("B"), [(1, rowOf 100), (2, rowOf 200), (3, rowOf 300)])]

/-- The feed over storeAB after two advance calls. -/
def feedAB2 : DataHandlerState :=
  (update_bars (update_bars (open_convert_csv_files storeAB)).1).1

/-- A one-symbol feed whose only record has been consumed: the next
advance call finds it exhausted. -/
def drainedFeed : DataHandlerState :=
  (update_bars (open_convert_csv_files [(("A"), [(1, rowOf 10)])])).1

/-- Two already-produced bars (bar values irrelevant to the query). -/
def twoBars : List Bar := [⟨"A", 1, none⟩, ⟨"A", 2, none⟩]

/-- A feed state holding the two bars of twoBars for symbol A. -/
def twoBarFeed : DataHandlerState := ⟨[⟨"A", [], twoBars⟩], true⟩

/-- A BUY fill of 10 shares with zero commission (fill_cost field 5). -/
def c1fill : FillEvent := mkFillEvent 0 ("AAPL") ("SIM") 10 ("BUY") 5 (some 0)

/-- The ledger right after that fill, with latest close 5. -/
def c1state : PortfolioState := update_fill (NaivePortfolio.mk ["AAPL"] 0 1000) c1fill 5

/-- A BUY fill of 10 shares carrying fill price 7 and commission 2. -/
def c2fill : FillEvent := mkFillEvent 0 ("AAPL") ("SIM") 10 ("BUY") 7 (some 2)

/-- The ledger right after c2fill when the latest close is 5 — a price
that differs from the fill event's own fill_cost of 7. -/
def c2state : PortfolioState := update_fill (NaivePortfolio.mk ["AAPL"] 0 1000) c2fill 5

/-! ## Theorems: performance analytics -/

/-- C4 (code_bug evidence): on the specification's example equity curve
[1.0, 1.2, 0.9, 1.1] the embedded get_max_drawdowns returns maximum
drawdown 3/10 as claimed — but duration NaN (none), not 1: at t = 0 the
source reads duration[t-1], the uninitialised last cell of the series,
and the NaN propagates through every subsequent increment. -/
theorem drawdown_duration_code_bug :
    get_max_drawdowns [1, 6 / 5, 9 / 10, 11 / 10] = .ok (3 / 10, none) ∧
    (.ok (3 / 10, none) : Except String (ℚ × Option ℚ)) ≠ .ok (3 / 10, some 1) := by
  constructor
  · norm_num [get_max_drawdowns, create_drawdowns, List.range_succ, drawdownStep, pyPred,
      sortedByDrawdownDesc, insertByDrawdownDesc, List.getD]
  · simp

/-- C5 (counterexample): an all-equal returns series has standard
deviation zero, yet the embedded get_sharpe_ratio returns an ok value —
the division is performed unguarded — contradicting the claim that a
zero standard deviation fails with a domain error. -/
theorem sharpe_zero_std_counterexample :
    get_sharpe_ratio [1, 1] 0 ("Daily") = .ok (252, 1, 0) ∧ npStdSq [1, 1] = 0 := by
  constructor
  · norm_num [get_sharpe_ratio, periodTable, npMean, npStdSq]
  · norm_num [npStdSq, npMean]

/-- C5 (amended): the risk-adjusted return ratio fails with a domain
error exactly when the returns series is empty, the periods preset is
unrecognised, or the risk-free parameter lies outside [0, 1]; a zero
standard deviation is NOT guarded.  On the ok path the value is the
(period, mean, variance) triple representing
sqrt(period) * mean / sqrt(variance), with the division performed
unconditionally. -/
theorem sharpe_error_conditions_amended (returns : List ℚ) (risk_free : ℚ)
    (periods : String) :
    (∀ v, get_sharpe_ratio returns risk_free periods = .ok v →
      v = (periodTable periods, npMean returns, npStdSq returns)) ∧
    ((∃ e, get_sharpe_ratio returns risk_free periods = .error e) ↔
      (returns = [] ∨
        ¬ (periods = "Daily" ∨ periods = "Hour" ∨ periods = "Minute") ∨
        risk_free < 0 ∨ 1 < risk_free)) := by
  cases returns with
  | nil => simp [get_sharpe_ratio]
  | cons a l =>
    by_cases hp : periods = "Daily" ∨ periods = "Hour" ∨ periods = "Minute"
    · by_cases hr : 0 ≤ risk_free ∧ risk_free ≤ 1
      · constructor
        · intro v hv
          simp [get_sharpe_ratio, hp, hr] at hv
          exact hv.symm
        · constructor
          · rintro ⟨e, he⟩
            simp [get_sharpe_ratio, hp, hr] at he
          · rintro (h | h | h | h)
            · exact absurd h (by simp)
            · exact absurd hp h
            · exact absurd hr (by intro hc; exact absurd hc.1 (not_le.mpr h))
            · exact absurd hr (by intro hc; exact absurd hc.2 (not_le.mpr h))
      · constructor
        · intro v hv
          simp [get_sharpe_ratio, hp, hr] at hv
        · constructor
          · intro _
            rcases not_and_or.mp hr with h | h
            · exact Or.inr (Or.inr (Or.inl (not_le.mp h)))
            · exact Or.inr (Or.inr (Or.inr (not_le.mp h)))
          · intro _
            exact ⟨"AssertionError: risk_free rate must lie in [0,1]",
              by simp [get_sharpe_ratio, hp, hr]⟩
    · constructor
      · intro v hv
        simp [get_sharpe_ratio, hp] at hv
      · constructor
        · intro _
          exact Or.inr (Or.inl hp)
        · intro _
          exact ⟨"AssertionError: periods", by simp [get_sharpe_ratio, hp]⟩

/-- Witness for the amended C5 theorem at the concrete series [1, 2]:
the ok value is (252, 3/2, 1/4). -/
theorem sharpe_error_conditions_witness :
    ((252 : ℚ), (3 / 2 : ℚ), (1 / 4 : ℚ)) =
      (periodTable ("Daily"), npMean [1, 2], npStdSq [1, 2]) :=
  (sharpe_error_conditions_amended [1, 2] 0 ("Daily")).1 (252, 3 / 2, 1 / 4)
    (by norm_num [get_sharpe_ratio, periodTable, npMean, npStdSq])

/-! ## Theorems: commission policy -/

/-- C9 (counterexample): a fill of 1 share at price 1 constructed without
a supplied commission gets commission 1/200, which is strictly below the
flat minimum 1.3 — the percentage-of-notional cap is applied with min and
can undercut the floor, so the claimed lower bound fails. -/
theorem ib_commission_floor_counterexample :
    (mkFillEvent 0 ("A") ("SIM") 1 ("BUY") 1 none).commission = 1 / 200 ∧
    (1 / 200 : ℚ) < 13 / 10 := by
  constructor
  · norm_num [mkFillEvent, caculate_ib_commission]
  · norm_num

/-- C9 (amended): the derived commission is tiered in quantity (rate
13/1000 per share at or below 500 shares, 1/125 above), equals
min(max(13/10, rate * quantity), cap) where cap is the
percentage-of-notional bound (1/200) * quantity * fill price, is bounded
above by the cap, and is bounded below only by min(13/10, cap) — the flat
minimum holds only when the cap exceeds it. -/
theorem ib_commission_amended (timeindex : Nat) (symbol exchange : String)
    (quantity : ℤ) (direction : String) (fill_cost : ℚ) :
    (mkFillEvent timeindex symbol exchange quantity direction fill_cost none).commission =
      min (max (13 / 10) ((if quantity ≤ 500 then (13 / 1000 : ℚ) else 1 / 125) * quantity))
        ((1 / 200) * quantity * fill_cost) ∧
    (mkFillEvent timeindex symbol exchange quantity direction fill_cost none).commission ≤
      (1 / 200) * quantity * fill_cost ∧
    min (13 / 10) ((1 / 200) * quantity * fill_cost) ≤
      (mkFillEvent timeindex symbol exchange quantity direction fill_cost none).commission := by
  have hc : (mkFillEvent timeindex symbol exchange quantity direction fill_cost none).commission =
      caculate_ib_commission quantity fill_cost := rfl
  rw [hc]
  unfold caculate_ib_commission
  by_cases hq : quantity ≤ 500
  · rw [if_pos hq, if_pos hq]
    exact ⟨rfl, min_le_right _ _, min_le_min (le_max_left _ _) le_rfl⟩
  · rw [if_neg hq, if_neg hq]
    exact ⟨rfl, min_le_right _ _, min_le_min (le_max_left _ _) le_rfl⟩

/-! ## Theorems: naive sizing policy -/

/-- C6 (confirmed): a LONG signal of nonnegative strength s processed
while the current position of its symbol is zero yields a BUY market
order for floor(100 * s) shares of that symbol (the constructor asserts
pass since the share count is nonnegative); the same signal processed
while the current position is nonzero yields no order. -/
theorem naive_order_sizing (symbol : String) (dt : Nat) (strength : ℚ)
    (hs : 0 ≤ strength) (cur_quantity : ℤ) :
    (cur_quantity = 0 →
      generate_naive_order ⟨symbol, dt, "LONG", strength⟩ cur_quantity =
        .ok (some ⟨symbol, "MKT", ⌊(100 : ℚ) * strength⌋, "BUY"⟩)) ∧
    (cur_quantity ≠ 0 →
      generate_naive_order ⟨symbol, dt, "LONG", strength⟩ cur_quantity = .ok none) := by
  constructor
  · intro h0
    subst h0
    have hq : (0 : ℤ) ≤ ⌊(100 : ℚ) * strength⌋ :=
      Int.floor_nonneg.mpr (by positivity)
    simp [generate_naive_order, mkOrderEvent, orderEventOk, hq, Except.map]
  · intro hne
    simp [generate_naive_order, hne]

/-- Witness for C6 at strength 1 and symbol AAPL: position 0 yields the
100-share BUY market order, position 50 yields no order. -/
theorem naive_order_sizing_witness :
    generate_naive_order ⟨"AAPL", 0, "LONG", 1⟩ 0 =
      .ok (some ⟨"AAPL", "MKT", 100, "BUY"⟩) ∧
    generate_naive_order ⟨"AAPL", 0, "LONG", 1⟩ 50 = .ok none := by
  constructor
  · have h := (naive_order_sizing ("AAPL") 0 1 (by norm_num) 0).1 rfl
    rw [h]
    norm_num
  · exact (naive_order_sizing ("AAPL") 0 1 (by norm_num) 50).2 (by norm_num)

/-- C10 (confirmed): the naive sizing policy produces at most one order
per signal, and every order it produces is a market order (MKT), never a
limit order. -/
theorem naive_order_market_only (signal : SignalEvent) (cur_quantity : ℤ) :
    (ordersOf (generate_naive_order signal cur_quantity)).length ≤ 1 ∧
    ∀ o ∈ ordersOf (generate_naive_order signal cur_quantity),
      o.order_type = "MKT" ∧ ¬ o.order_type = "LMT" := by
  have key : ∀ (sym : String) (q : ℤ) (d : String),
      (ordersOf ((mkOrderEvent sym "MKT" q d).map some)).length ≤ 1 ∧
      ∀ o ∈ ordersOf ((mkOrderEvent sym "MKT" q d).map some),
        o.order_type = "MKT" ∧ ¬ o.order_type = "LMT" := by
    intro sym q d
    by_cases hok : orderEventOk ⟨sym, "MKT", q, d⟩
    · refine ⟨by simp [mkOrderEvent, hok, ordersOf, Except.map], ?_⟩
      intro o ho
      simp [mkOrderEvent, hok, ordersOf, Except.map] at ho
      subst ho
      exact ⟨rfl, by simp⟩
    · refine ⟨by simp [mkOrderEvent, hok, ordersOf, Except.map], ?_⟩
      intro o ho
      simp [mkOrderEvent, hok, ordersOf, Except.map] at ho
  unfold generate_naive_order
  split_ifs <;>
    first
      | exact key _ _ _
      | exact ⟨by simp [ordersOf], by intro o ho; simp [ordersOf] at ho⟩

/-- Witness for C10 at the concrete LONG signal of strength 1 with
position 0: the produced order list is the single MKT order. -/
theorem naive_order_market_only_witness :
    (ordersOf (generate_naive_order ⟨"AAPL", 0, "LONG", 1⟩ 0)).length ≤ 1 ∧
    OrderEvent.order_type ⟨"AAPL", "MKT", 100, "BUY"⟩ = "MKT" := by
  constructor
  · exact (naive_order_market_only ⟨"AAPL", 0, "LONG", 1⟩ 0).1
  · refine ((naive_order_market_only ⟨"AAPL", 0, "LONG", 1⟩ 0).2
      ⟨"AAPL", "MKT", 100, "BUY"⟩ ?_).1
    have h := (naive_order_sizing ("AAPL") 0 1 (by norm_num) 0).1 rfl
    rw [h]
    simp [ordersOf]

/-! ## Theorems: bar feed -/

/-- C3 (code_bug evidence): on the spec's forward-fill example — symbol A
observed at times 1 and 3, symbol B at 1, 2 and 3 — the combined index is
NOT the union [1, 2, 3] but just A's own index [1, 3], because the source
discards the result of the union call; consequently after two advance
calls A's second produced bar is its time-3 record, not a forward-filled
copy of its time-1 bar, and B's time-2 record is skipped entirely. -/
theorem reindex_union_code_bug :
    combIndex storeAB = [1, 3] ∧
    combIndex storeAB ≠ [1, 2, 3] ∧
    get_latest_bars feedAB2 ("A") 2 =
      some [⟨"A", 1, some ⟨10, 10, 10, 10, 10⟩⟩, ⟨"A", 3, some ⟨30, 30, 30, 30, 30⟩⟩] ∧
    (⟨"A", 3, some ⟨30, 30, 30, 30, 30⟩⟩ : Bar) ≠ ⟨"A", 1, some ⟨10, 10, 10, 10, 10⟩⟩ ∧
    get_latest_bars feedAB2 ("B") 2 =
      some [⟨"B", 1, some ⟨100, 100, 100, 100, 100⟩⟩, ⟨"B", 3, some ⟨300, 300, 300, 300, 300⟩⟩] := by
  refine ⟨by simp [combIndex, storeAB, rowOf], by simp [combIndex, storeAB, rowOf], ?_, by simp, ?_⟩ <;>
    simp [feedAB2, open_convert_csv_files, combIndex, storeAB, rowOf, reindexPad, padLookup,
      update_bars, mkBar, get_latest_bars, lookupFeed, pySliceLast]

/-- C7 (counterexample): an advance call that finds the feed exhausted
(the single symbol has no remaining rows) does set continue_backtest to
false, but it still puts one Market event on the queue, contradicting the
claim that no Market event is enqueued for that call. -/
theorem exhausted_advance_counterexample :
    (update_bars drainedFeed).1.continue_backtest = false ∧
    (update_bars drainedFeed).2 = [FeedEvent.market] ∧
    ([FeedEvent.market] : List FeedEvent) ≠ [] := by
  refine ⟨?_, rfl, by simp⟩
  simp [drainedFeed, open_convert_csv_files, combIndex, rowOf, reindexPad, padLookup,
    update_bars, mkBar]

/-- C7 (amended): once any tracked symbol has no further rows, the
advance call reports exhaustion (continue_backtest becomes false) and the
outer dispatch loop makes no further advance — but that same advance call
still enqueues one Market event, which the inner phase then processes. -/
theorem exhausted_advance_amended (st : DataHandlerState)
    (h : ∃ f ∈ st.data, f.remaining = []) :
    (update_bars st).1.continue_backtest = false ∧
    (update_bars st).2 = [FeedEvent.market] ∧
    ∀ n, outerLoop n (update_bars st).1 = (update_bars st).1 := by
  have hany : st.data.any (fun f => f.remaining.isEmpty) = true := by
    rcases h with ⟨f, hf, he⟩
    exact List.any_eq_true.mpr ⟨f, hf, by simp [he]⟩
  have hcb : (update_bars st).1.continue_backtest = false := by
    simp [update_bars, hany]
  refine ⟨hcb, rfl, ?_⟩
  intro n
  cases n with
  | zero => rfl
  | succ m => simp [outerLoop, hcb]

/-- Witness for the amended C7 theorem on the concrete drained feed. -/
theorem exhausted_advance_amended_witness :
    (update_bars drainedFeed).1.continue_backtest = false ∧
    (update_bars drainedFeed).2 = [FeedEvent.market] ∧
    outerLoop 3 (update_bars drainedFeed).1 = (update_bars drainedFeed).1 := by
  have h := exhausted_advance_amended drainedFeed
    (by
      refine ⟨(drainedFeed.data).head ?_, ?_, ?_⟩ <;>
        simp [drainedFeed, open_convert_csv_files, combIndex, rowOf, reindexPad, padLookup,
          update_bars, mkBar])
  exact ⟨h.1, h.2.1, h.2.2 3⟩

/-- C8 (amended): for a tracked symbol and a count of at least 1 the
query returns the min(count, produced) most recent bars, oldest first
(the suffix of the produced-bar list); for count = 0 the Python slice
returns ALL produced bars; for an unrecognized symbol the function
returns Python None — no exception, but not an empty sequence either. -/
theorem latest_bars_amended (st : DataHandlerState) (symbol : String) (n : Nat) :
    (∀ f, lookupFeed st symbol = some f →
      (1 ≤ n →
        get_latest_bars st symbol n = some (f.latest.drop (f.latest.length - n)) ∧
        (f.latest.drop (f.latest.length - n)).length = min n f.latest.length) ∧
      (n = 0 → get_latest_bars st symbol n = some f.latest)) ∧
    (lookupFeed st symbol = none → get_latest_bars st symbol n = none) := by
  constructor
  · intro f hf
    constructor
    · intro hn
      have hn0 : ¬ n = 0 := by omega
      constructor
      · simp [get_latest_bars, hf, pySliceLast, hn0]
      · rw [List.length_drop]
        omega
    · intro hn
      subst hn
      simp [get_latest_bars, hf, pySliceLast]
  · intro hf
    simp [get_latest_bars, hf]

/-- Witness for the amended C8 theorem: querying the newest single bar of
a symbol with two produced bars returns the one-element suffix. -/
theorem latest_bars_amended_witness :
    (get_latest_bars twoBarFeed ("A") 1 = some (twoBars.drop (twoBars.length - 1)) ∧
      (twoBars.drop (twoBars.length - 1)).length = min 1 twoBars.length) ∧
    (get_latest_bars twoBarFeed ("A") 0 = some twoBars) := by
  have h := (latest_bars_amended twoBarFeed ("A") 1).1 ⟨"A", [], twoBars⟩
    (by simp [lookupFeed, twoBarFeed])
  have h0 := (latest_bars_amended twoBarFeed ("A") 0).1 ⟨"A", [], twoBars⟩
    (by simp [lookupFeed, twoBarFeed])
  exact ⟨h.1 (by norm_num), h0.2 rfl⟩

/-- C8 (counterexample): an unrecognized symbol returns Python None
(modelled none), which is not the claimed empty sequence. -/
theorem latest_bars_unknown_symbol_counterexample :
    get_latest_bars twoBarFeed ("MISSING") 1 = none ∧
    get_latest_bars twoBarFeed ("MISSING") 1 ≠ some [] := by
  have h : lookupFeed twoBarFeed ("MISSING") = none := by
    simp [lookupFeed, twoBarFeed]
  rw [get_latest_bars, h]
  simp

/-! ## Theorems: portfolio ledger -/

/-- Summing an if-membership-guarded column over the guard's own list is
summing the unguarded column. -/
theorem sum_map_mem_if (l : List String) (g : String → ℚ) :
    (l.map (fun s => if s ∈ l then g s else 0)).sum = (l.map g).sum := by
  rw [List.map_congr_left]
  intro s hs
  rw [if_pos hs]

/-- No ledger update changes the tracked symbol list. -/
theorem reach_symbol_list (sl : List String) (sd : Nat) (ic : ℚ)
    (st : PortfolioState) (h : Reach sl sd ic st) : st.symbol_list = sl := by
  induction h with
  | start => rfl
  | market st dt close hr ih => exact ih
  | fill st f c hr ih => exact ih

/-- C1 (amended): in every reachable ledger state, every row of the
all_holdings series — the seed row and each row appended by a time-index
update — satisfies total = cash + sum of the per-symbol market values.
(The claim's extension of the invariant to current_holdings after a Fill
update is refuted separately: the fill update shifts total and the value
column by the same signed fill cost, leaving cash + sum ahead of total by
exactly that fill cost.) -/
theorem holdings_rows_invariant_amended (sl : List String) (sd : Nat) (ic : ℚ)
    (st : PortfolioState) (h : Reach sl sd ic st) :
    ∀ row ∈ st.all_holdings, rowInvariant sl row := by
  induction h with
  | start =>
    intro row hrow
    rw [NaivePortfolio.mk] at hrow
    simp only [List.mem_singleton] at hrow
    subst hrow
    simp [rowInvariant]
  | market st dt close hr ih =>
    intro row hrow
    rw [update_timeindex] at hrow
    rcases List.mem_append.mp hrow with hmem | hmem
    · exact ih row hmem
    · rw [List.mem_singleton] at hmem
      subst hmem
      have hsl : st.symbol_list = sl := reach_symbol_list sl sd ic st hr
      rw [rowInvariant, mkHoldingsRow]
      simp only [hsl]
      rw [sum_map_mem_if]
  | fill st f c hr ih =>
    intro row hrow
    apply ih
    rw [update_fill, update_positions_from_fill, update_holdings_from_fill] at hrow
    exact hrow

/-- Witness for the amended C1 theorem: the holdings row appended by a
time-index update right after construction satisfies the invariant. -/
theorem holdings_rows_invariant_witness :
    rowInvariant ["AAPL"]
      (mkHoldingsRow (NaivePortfolio.mk ["AAPL"] 0 1000) 1 (fun _ => 5)) := by
  refine holdings_rows_invariant_amended ["AAPL"] 0 1000
    (update_timeindex (NaivePortfolio.mk ["AAPL"] 0 1000) 1 (fun _ => 5))
    (Reach.market (NaivePortfolio.mk ["AAPL"] 0 1000) 1 (fun _ => 5) Reach.start)
    (mkHoldingsRow (NaivePortfolio.mk ["AAPL"] 0 1000) 1 (fun _ => 5)) ?_
  rw [update_timeindex]
  exact List.mem_append_right _ (List.mem_singleton_self _)

/-- C1 (counterexample): after a BUY fill of 10 shares at latest close 5
with zero commission on a fresh 1000-cash ledger, current_holdings.total
is 950 while cash + sum of symbol values is 1000 — the invariant does NOT
hold for current_holdings after a Fill update, refuting that part of the
claim. -/
theorem current_holdings_invariant_counterexample :
    c1state.current_holdings.total = 950 ∧
    c1state.current_holdings.cash + (["AAPL"].map c1state.current_holdings.values).sum = 1000 ∧
    ¬ currentInvariant ["AAPL"] c1state.current_holdings := by
  refine ⟨?_, ?_, ?_⟩ <;>
    norm_num [c1state, c1fill, currentInvariant, update_fill, update_positions_from_fill,
      update_holdings_from_fill, NaivePortfolio.mk, construct_current_holdings, mkFillEvent,
      fillDir, Function.update_same]

/-- C2 (counterexample): c2fill carries fill price (fill_cost field) 7,
but with latest close 5 the holdings update credits the symbol column
with 10 * 5 = 50, not delta * fill price = 70, and the total column is
not cash plus the sum of the symbol values afterwards: the code prices
the fill at the latest bar close and adjusts total incrementally. -/
theorem fill_update_uses_latest_close_counterexample :
    c2state.current_holdings.values ("AAPL") = 50 ∧
    (c2fill.quantity : ℚ) * c2fill.fill_cost = 70 ∧
    (50 : ℚ) ≠ 70 ∧
    c2state.current_holdings.total ≠
      c2state.current_holdings.cash + (["AAPL"].map c2state.current_holdings.values).sum := by
  refine ⟨?_, ?_, by norm_num, ?_⟩ <;>
    norm_num [c2state, c2fill, update_fill, update_positions_from_fill,
      update_holdings_from_fill, NaivePortfolio.mk, construct_current_holdings, mkFillEvent,
      fillDir, Function.update_same]

/-- C2 (amended): for a fill with direction BUY or SELL, the ledger adds
delta = (+quantity for BUY, -quantity for SELL) to the symbol's position,
adds delta * LATEST CLOSE (not the fill event's own fill price) to the
symbol's holdings column, subtracts delta * close + commission from cash,
accumulates the commission, and adjusts total by
-(delta * close + commission) instead of recomputing it from cash and the
symbol values. -/
theorem fill_update_amended (st : PortfolioState) (fill : FillEvent)
    (latest_close : ℚ) (h : fill.direction = "BUY" ∨ fill.direction = "SELL") :
    (fill.direction = "BUY" → fillDir fill.direction = 1) ∧
    (fill.direction = "SELL" → fillDir fill.direction = -1) ∧
    (update_fill st fill latest_close).current_positions fill.symbol =
      st.current_positions fill.symbol + fillDir fill.direction * fill.quantity ∧
    (update_fill st fill latest_close).current_holdings.values fill.symbol =
      st.current_holdings.values fill.symbol +
        ((fillDir fill.direction * fill.quantity : ℤ) : ℚ) * latest_close ∧
    (update_fill st fill latest_close).current_holdings.cash =
      st.current_holdings.cash -
        (((fillDir fill.direction * fill.quantity : ℤ) : ℚ) * latest_close + fill.commission) ∧
    (update_fill st fill latest_close).current_holdings.commission =
      st.current_holdings.commission + fill.commission ∧
    (update_fill st fill latest_close).current_holdings.total =
      st.current_holdings.total -
        (((fillDir fill.direction * fill.quantity : ℤ) : ℚ) * latest_close + fill.commission) := by
  refine ⟨?_, ?_, ?_, ?_, ?_, ?_, ?_⟩
  · intro hb
    rw [fillDir, if_pos hb]
  · intro hs
    rcases h with hb | hsell
    · rw [hb] at hs
      exact absurd hs (by simp)
    · rw [fillDir, if_neg (by rw [hsell]; simp), if_pos hsell]
  · rw [update_fill, update_positions_from_fill]
    simp [update_holdings_from_fill, Function.update_same]
  · rw [update_fill, update_positions_from_fill]
    simp only []
    rw [update_holdings_from_fill]
    simp [Function.update_same]
    ring
  · rw [update_fill, update_positions_from_fill]
    simp only []
    rw [update_holdings_from_fill]
    simp only []
    push_cast
    ring
  · rw [update_fill, update_positions_from_fill]
    simp [update_holdings_from_fill]
  · rw [update_fill, update_positions_from_fill]
    simp only []
    rw [update_holdings_from_fill]
    simp only []
    push_cast
    ring

/-- Witness for the amended C2 theorem on the concrete fill c2fill with
latest close 5: the hypothesis holds (direction BUY) and the cash
equation follows. -/
theorem fill_update_amended_witness :
    (c2fill.direction = "BUY" ∨ c2fill.direction = "SELL") ∧
    (update_fill (NaivePortfolio.mk ["AAPL"] 0 1000) c2fill 5).current_holdings.cash =
      (NaivePortfolio.mk ["AAPL"] 0 1000).current_holdings.cash -
        (((fillDir c2fill.direction * c2fill.quantity : ℤ) : ℚ) * 5 + c2fill.commission) :=
  ⟨Or.inl rfl,
    (fill_update_amended (NaivePortfolio.mk ["AAPL"] 0 1000) c2fill 5
      (Or.inl rfl)).2.2.2.2.1⟩

end BackTester
